import Mathlib

/-!
Shallow embedding of the voice presence/session tracker of `src/main.py`
(Healths-Bot).  Timestamps are modelled as integer epoch seconds (UTC).
The PostgreSQL tables are modelled as Lean lists of records; each SQL
query is translated into a Lean function (or, where the SQL leaves the
row order underdetermined — `ORDER BY` with ties — a relation on outputs).
-/

namespace HealthsBot

/-! ## Calendar dates and the fixed UTC+9 organizational timezone

`main.py` uses `JST = ZoneInfo("Asia/Tokyo")` (line 73), which is a fixed
UTC+9 offset for all dates this system works with; the embedding fixes the
offset at +9 hours.  Python `date` arithmetic is ordinal (day-count) based;
the embedding converts a civil date to its epoch day with the standard
days-from-civil algorithm and a day's UTC midnight to epoch seconds. -/

/-- A parsed calendar date (proleptic Gregorian), as produced by
`datetime.strptime(s, "%Y-%m-%d").date()`. -/
structure Ymd where
  y : Nat
  m : Nat
  d : Nat
deriving DecidableEq, Repr

/-- Gregorian leap-year test, as used by Python's `datetime`. -/
def isLeap (y : Nat) : Bool :=
  y % 4 == 0 && (y % 100 != 0 || y % 400 == 0)

/-- Days in a month of a given year, as validated by `datetime.date`. -/
def daysInMonth (y m : Nat) : Nat :=
  if m = 2 then (if isLeap y then 29 else 28)
  else if m = 4 ∨ m = 6 ∨ m = 9 ∨ m = 11 then 30
  else 31

/-- Epoch day number (days since 1970-01-01) of a civil date, the
day-count arithmetic underlying Python's `date`/`timestamp` handling. -/
def days_from_civil (y m d : Nat) : Int :=
  let y2 : Nat := if m ≤ 2 then y - 1 else y
  let era : Nat := y2 / 400
  let yoe : Nat := y2 - era * 400
  let mp : Nat := if 2 < m then m - 3 else m + 9
  let doy : Nat := (153 * mp + 2) / 5 + d - 1
  let doe : Nat := yoe * 365 + yoe / 4 - yoe / 100 + doy
  (era * 146097 + doe : Int) - 719468

/-- Epoch day number of a `Ymd`. -/
def epochDay (dt : Ymd) : Int := days_from_civil dt.y dt.m dt.d

/-! ## `parse_ymd` (main.py lines 310-316)

`datetime.strptime(s, "%Y-%m-%d")` matches the string against CPython's
compiled pattern `(?P<Y>\d\d\d\d)-(?P<m>1[0-2]|0[1-9]|[1-9])-`
`(?P<d>3[01]|[12]\d|0[1-9]|[1-9])`, requires the whole string to be
consumed, and then `date(y, m, d)` validates 1 ≤ year and
1 ≤ day ≤ days-in-month; any failure raises, which `parse_ymd` catches
and turns into `None`.  Because each group is followed by a non-digit
(`-` or end of input), a maximal digit run must be consumed whole: the
year run must have length exactly 4, and the month/day runs length at
most 2 with the month in 1..12 and the day in 1..31 (then validated
against the month).  Python's `\d` and `int()` additionally accept
non-ASCII Unicode decimal digits; the embedding models date strings over
ASCII, on which the two coincide. -/

/-- Split a character list into its leading ASCII-digit run and the rest. -/
def takeDigits : List Char → List Char × List Char
  | [] => ([], [])
  | c :: cs =>
    if c.isDigit then
      let p := takeDigits cs
      (c :: p.1, p.2)
    else ([], c :: cs)

/-- Numeric value of a digit run. -/
def digitsToNat (ds : List Char) : Nat :=
  ds.foldl (fun acc c => acc * 10 + (c.toNat - '0'.toNat)) 0

/-- Embedding of `parse_ymd` (main.py lines 310-316): `None`/empty input
and any string that fails to parse or validate as `YYYY-MM-DD` yield
`none`; no exception escapes. -/
def parse_ymd (s? : Option String) : Option Ymd :=
  match s? with
  | none => none
  | some s =>
    if s.isEmpty then none
    else
      let p1 := takeDigits s.toList
      match p1.2 with
      | '-' :: r1 =>
        if p1.1.length ≠ 4 then none
        else
          let p2 := takeDigits r1
          match p2.2 with
          | '-' :: r2 =>
            if p2.1.length = 0 ∨ 2 < p2.1.length then none
            else
              let p3 := takeDigits r2
              if p3.1.length = 0 ∨ 2 < p3.1.length ∨ p3.2 ≠ [] then none
              else
                let y := digitsToNat p1.1
                let m := digitsToNat p2.1
                let d := digitsToNat p3.1
                if 1 ≤ y ∧ 1 ≤ m ∧ m ≤ 12 ∧ 1 ≤ d ∧ d ≤ daysInMonth y m then
                  some ⟨y, m, d⟩
                else none
          | _ => none
      | _ => none

/-! ## JST day bounds (main.py lines 319-325) -/

/-- `jst_day_start_utc` (main.py lines 319-321): the UTC instant of the
date's midnight in the fixed UTC+9 zone. -/
def jst_day_start_utc (dt : Ymd) : Int :=
  epochDay dt * 86400 - 9 * 3600

/-- `jst_day_end_exclusive_utc` (main.py lines 323-325): the UTC instant
of the *following* day's midnight in the fixed UTC+9 zone
(`d + timedelta(days=1)` is the epoch-day successor). -/
def jst_day_end_exclusive_utc (dt : Ymd) : Int :=
  (epochDay dt + 1) * 86400 - 9 * 3600

/-- `build_utc_range` (main.py lines 413-418): optional date strings to an
optional-bounded half-open UTC window; an unparseable date gives `none`
on that side. -/
def build_utc_range (from_str to_str : Option String) : Option Int × Option Int :=
  let d_from := parse_ymd from_str
  let d_to := parse_ymd to_str
  (d_from.map jst_day_start_utc, d_to.map jst_day_end_exclusive_utc)

/-! ## The `voice_sessions` table rows and the finalizer -/

/-- A row of the `voice_sessions` PostgreSQL table (main.py lines 360-368). -/
structure SRow where
  guild_id : Int
  channel_id : Int
  user_id : Int
  start_utc : Int
  end_utc : Int
deriving DecidableEq, Repr

/-- Embedding of `save_voice_session` (main.py lines 398-410): `some r`
means exactly one row `r` is inserted, `none` means nothing is persisted
(and, being a total function, no error is raised). -/
def save_voice_session (gid cid uid : Int) (start_dt_utc end_dt_utc : Int)
    (zero : Bool) : Option SRow :=
  let e := if zero then start_dt_utc else end_dt_utc
  if zero = false ∧ e ≤ start_dt_utc then none
  else some ⟨gid, cid, uid, start_dt_utc, e⟩

/-! ## Overlap filter and the aggregation queries (main.py lines 421-479)

`overlap_cond_sql` (main.py lines 421-430) returns the condition string
(`"end_utc > $X"` and/or `"start_utc < $Y"`, joined with `AND`) plus the
parameter values.  Each query then renumbers the placeholders, replacing
`$X` by dollar-sign `len(params)+1` and `$Y` by dollar-sign
`len(params)+2` (main.py lines 436-440, 452-456, 470-474, 613-617,
651-655), and appends the parameter values.  `$Y` is always renumbered to `len(params)+2`, even
when no `$X` conjunct exists: with only an end bound the SQL references
placeholder `n+2` while only one parameter is appended at position
`n+1`, so the statement has a parameter-index gap and PostgreSQL/asyncpg
reject it — the query raises instead of returning.  The embedding models
the renumbering by the list of referenced placeholder indices
(`overlap_refs`), the appended parameters (`overlap_extra`), and the
acceptance check (`overlap_refs_ok`: references are exactly the supplied
positions `n+1 .. n+len(extra)`); each query is `Option`-valued, `none`
meaning the statement is rejected and the operation raises. -/

/-- The parameter values returned by `overlap_cond_sql`
(main.py lines 423-429): the present bounds, start bound first. -/
def overlap_extra (s e : Option Int) : List Int :=
  (match s with
   | some sv => [sv]
   | none => []) ++
  (match e with
   | some ev => [ev]
   | none => [])

/-- The placeholder indices referenced by the renumbered condition when
the query already holds `n` parameters: `$X ↦ n+1`, `$Y ↦ n+2`,
unconditionally. -/
def overlap_refs (s e : Option Int) (n : Nat) : List Nat :=
  (match s with
   | some _ => [n + 1]
   | none => []) ++
  (match e with
   | some _ => [n + 2]
   | none => [])

/-- PostgreSQL/asyncpg accept the built statement iff the referenced
placeholder indices are exactly the positions of the appended parameters,
`n+1 .. n+len(extra)`; otherwise preparing/executing it raises. -/
def overlap_refs_ok (s e : Option Int) (n : Nat) : Bool :=
  decide (overlap_refs s e n =
    (List.range (overlap_extra s e).length).map (fun i => n + 1 + i))

/-- Row semantics of the overlap condition of `overlap_cond_sql`
(main.py lines 421-430) — `end_utc > S AND start_utc < E`, each conjunct
present only when the corresponding bound is — for the accepted
statements (the queries below evaluate it only under `overlap_refs_ok`). -/
def overlap_cond_sql (s e : Option Int) (r : SRow) : Bool :=
  (match s with
   | some sv => decide (sv < r.end_utc)
   | none => true) &&
  (match e with
   | some ev => decide (r.start_utc < ev)
   | none => true)

/-- The `WHERE guild_id=$1 AND user_id=$2 [AND overlap]` row set shared by
`total_seconds_user`, `total_seconds_per_channel_user` and
`vt_export_user`. -/
def where_guild_user (db : List SRow) (gid uid : Int) (s e : Option Int) : List SRow :=
  db.filter (fun r =>
    decide (r.guild_id = gid) && decide (r.user_id = uid) && overlap_cond_sql s e r)

/-- The `WHERE guild_id=$1 [AND overlap]` row set shared by
`top_users_between` and `vt_export`. -/
def where_guild (db : List SRow) (gid : Int) (s e : Option Int) : List SRow :=
  db.filter (fun r => decide (r.guild_id = gid) && overlap_cond_sql s e r)

/-- Embedding of `total_seconds_user` (main.py lines 432-443):
`SELECT SUM(EXTRACT(EPOCH FROM (end_utc - start_utc)))` over the matched
rows; `SUM` of no rows is `NULL`, coerced to 0 by `int(row or 0)`.  The
query holds 2 base parameters (guild, user); `none` means the built
statement is rejected (placeholder gap) and the call raises. -/
def total_seconds_user (db : List SRow) (gid uid : Int)
    (from_str to_str : Option String) : Option Int :=
  let w := build_utc_range from_str to_str
  if overlap_refs_ok w.1 w.2 2 then
    some (((where_guild_user db gid uid w.1 w.2).map
      (fun r => r.end_utc - r.start_utc)).sum)
  else none

/-- The `GROUP BY channel_id` sums of `total_seconds_per_channel_user`
(main.py lines 445-461): one pair per distinct channel among the matched
rows, with the group's summed duration. -/
def per_channel_groups (db : List SRow) (gid uid : Int) (s e : Option Int) :
    List (Int × Int) :=
  let rows := where_guild_user db gid uid s e
  ((rows.map (·.channel_id)).dedup).map (fun c =>
    (c, ((rows.filter (fun r => decide (r.channel_id = c))).map
          (fun r => r.end_utc - r.start_utc)).sum))

/-- Embedding of `total_seconds_per_channel_user` (main.py lines 445-461)
as an input/output relation: when the built statement is accepted (2 base
parameters), `ORDER BY sec DESC NULLS LAST LIMIT n` returns the first `n`
elements of *some* descending-by-seconds ordering of the grouped sums —
SQL fixes no tie order, so the output is any list obtainable that way;
when the statement is rejected (placeholder gap) the call raises and the
outcome is `none`. -/
def total_seconds_per_channel_user (db : List SRow) (gid uid : Int) (n : Nat)
    (from_str to_str : Option String) (out : Option (List (Int × Int))) : Prop :=
  let w := build_utc_range from_str to_str
  if overlap_refs_ok w.1 w.2 2 then
    ∃ l : List (Int × Int),
      l.Perm (per_channel_groups db gid uid w.1 w.2) ∧
      l.Pairwise (fun a b => b.2 ≤ a.2) ∧
      out = some (l.take n)
  else out = none

/-- The `GROUP BY user_id` sums of `top_users_between`
(main.py lines 463-479). -/
def per_user_groups (db : List SRow) (gid : Int) (s e : Option Int) :
    List (Int × Int) :=
  let rows := where_guild db gid s e
  ((rows.map (·.user_id)).dedup).map (fun u =>
    (u, ((rows.filter (fun r => decide (r.user_id = u))).map
          (fun r => r.end_utc - r.start_utc)).sum))

/-- Embedding of `top_users_between` (main.py lines 463-479) as an
input/output relation, like `total_seconds_per_channel_user` but with 1
base parameter (guild). -/
def top_users_between (db : List SRow) (gid : Int) (n : Nat)
    (from_str to_str : Option String) (out : Option (List (Int × Int))) : Prop :=
  let w := build_utc_range from_str to_str
  if overlap_refs_ok w.1 w.2 1 then
    ∃ l : List (Int × Int),
      l.Perm (per_user_groups db gid w.1 w.2) ∧
      l.Pairwise (fun a b => b.2 ≤ a.2) ∧
      out = some (l.take n)
  else out = none

/-! ## Export queries (main.py lines 604-674) -/

/-- Embedding of the row query of `vt_export` (main.py lines 610-620):
`SELECT ... WHERE guild_id=$1 [AND overlap] ORDER BY start_utc`, 1 base
parameter.  When accepted, the output is any start-ascending ordering of
the matched rows (SQL fixes no order among equal `start_utc`); when the
statement is rejected (placeholder gap) the call raises, no rows are
fetched and no CSV is emitted — outcome `none`. -/
def vt_export (db : List SRow) (gid : Int)
    (from_str to_str : Option String) (out : Option (List SRow)) : Prop :=
  let w := build_utc_range from_str to_str
  if overlap_refs_ok w.1 w.2 1 then
    ∃ rows : List SRow,
      rows.Perm (where_guild db gid w.1 w.2) ∧
      rows.Pairwise (fun a b => a.start_utc ≤ b.start_utc) ∧
      out = some rows
  else out = none

/-- Embedding of the row query of `vt_export_user` (main.py lines
648-658): same with `AND user_id=$2`, 2 base parameters. -/
def vt_export_user (db : List SRow) (gid uid : Int)
    (from_str to_str : Option String) (out : Option (List SRow)) : Prop :=
  let w := build_utc_range from_str to_str
  if overlap_refs_ok w.1 w.2 2 then
    ∃ rows : List SRow,
      rows.Perm (where_guild_user db gid uid w.1 w.2) ∧
      rows.Pairwise (fun a b => a.start_utc ≤ b.start_utc) ∧
      out = some rows
  else out = none

/-- The numeric columns of one emitted CSV line (main.py lines 624-632 and
662-668): channel id, user id, start, end, and
`duration_sec = int((e - s).total_seconds())`. -/
structure CsvLine where
  channel_id : Int
  user_id : Int
  start_utc : Int
  end_utc : Int
  duration_sec : Int
deriving DecidableEq, Repr

/-- The CSV lines written for a fetched row list, one line per row
(main.py lines 624-632). -/
def vt_export_csv (rows : List SRow) : List CsvLine :=
  rows.map (fun r => ⟨r.channel_id, r.user_id, r.start_utc, r.end_utc,
                      r.end_utc - r.start_utc⟩)

/-! ## In-memory session registry and event handlers

`main.py` keeps three process-wide registries (lines 287-291):
`voice_sessions : dict[(guild_id, channel_id, user_id), datetime]`,
`zero_mark : set[key]` and `voice_targets : dict[guild_id, set[channel_id]]`.
The dict/set are modelled as association lists / lists with the
corresponding operations; a Python dict holds at most one binding per key,
so removal is modelled by dropping every binding of the key. -/

/-- A session key `(guild_id, channel_id, user_id)`. -/
abbrev VKey := Int × Int × Int

/-- Dict lookup: the value bound to `k`, if any. -/
def lookupKey : List (VKey × Int) → VKey → Option Int
  | [], _ => none
  | p :: rest, k => if p.1 = k then some p.2 else lookupKey rest k

/-- Dict removal (`d.pop(key, None)`'s effect on the dict): drop the
binding(s) of `k`. -/
def eraseKey (l : List (VKey × Int)) (k : VKey) : List (VKey × Int) :=
  l.filter (fun p => decide (p.1 ≠ k))

/-- Number of bindings of `k` (for the one-open-session-per-key invariant). -/
def countKey : List (VKey × Int) → VKey → Nat
  | [], _ => 0
  | p :: rest, k => (if p.1 = k then 1 else 0) + countKey rest k

/-- Set insertion (`s.add(x)`): membership-idempotent. -/
def listAdd {α : Type} [DecidableEq α] (l : List α) (x : α) : List α :=
  if x ∈ l then l else x :: l

/-- Set removal (`s.discard(x)` / `s.remove(x)` when present). -/
def listRemove {α : Type} [DecidableEq α] (l : List α) (x : α) : List α :=
  l.filter (fun a => decide (a ≠ x))

/-- `gid in voice_targets` on the per-guild cache. -/
def targetsContains : List (Int × List Int) → Int → Bool
  | [], _ => false
  | p :: rest, g => if p.1 = g then true else targetsContains rest g

/-- `voice_targets.get(gid, set())`. -/
def targetsGet : List (Int × List Int) → Int → List Int
  | [], _ => []
  | p :: rest, g => if p.1 = g then p.2 else targetsGet rest g

/-- `voice_targets[gid] = v` (bind or overwrite). -/
def targetsSet : List (Int × List Int) → Int → List Int → List (Int × List Int)
  | [], g, v => [(g, v)]
  | p :: rest, g, v => if p.1 = g then (g, v) :: rest else p :: targetsSet rest g v

/-- The whole mutable state of the tracker: the three in-memory registries
plus the two durable tables (`target_voice_channels` rows as
`(guild_id, channel_id)` pairs, and the `voice_sessions` table). -/
structure BotState where
  voice_sessions : List (VKey × Int)
  zero_mark : List VKey
  voice_targets : List (Int × List Int)
  target_voice_channels : List (Int × Int)
  db_voice_sessions : List SRow
deriving DecidableEq, Repr

/-- Embedding of `load_voice_targets_for_guild` (main.py lines 390-396):
set the guild's cache entry to the channel ids stored for it. -/
def load_voice_targets_for_guild (st : BotState) (gid : Int) : BotState :=
  { st with voice_targets :=
      (targetsSet st.voice_targets gid
        ((st.target_voice_channels.filter (fun p => decide (p.1 = gid))).map (·.2))) }

/-- Embedding of `add_voice_target_channel` (main.py lines 381-388):
idempotent insert into the durable table and into the cache
(`voice_targets.setdefault(gid, set()).add(cid)`). -/
def add_voice_target_channel (st : BotState) (gid cid : Int) : BotState :=
  { st with
    target_voice_channels := listAdd st.target_voice_channels (gid, cid),
    voice_targets :=
      targetsSet st.voice_targets gid (listAdd (targetsGet st.voice_targets gid) cid) }

/-- The close phase of `on_voice_state_update` (main.py lines 1180-1186):
pop the key's session and zero-mark, and if a session was open, run the
finalizer and append its row (if any) to the durable table. -/
def session_close (st : BotState) (gid bc uid now : Int) : BotState :=
  let key : VKey := (gid, bc, uid)
  let start? := lookupKey st.voice_sessions key
  let z : Bool := decide (key ∈ st.zero_mark)
  let st1 := { st with voice_sessions := eraseKey st.voice_sessions key,
                       zero_mark := listRemove st.zero_mark key }
  match start? with
  | some start =>
    { st1 with db_voice_sessions :=
        st1.db_voice_sessions ++ (save_voice_session gid bc uid start now z).toList }
  | none => st1

/-- The open phase of `on_voice_state_update` (main.py lines 1189-1194):
start a session only if none is open for the key, then clear the key's
zero-mark ("new sessions default to zero-treatment OFF"). -/
def session_open (st : BotState) (gid ac uid now : Int) : BotState :=
  let key : VKey := (gid, ac, uid)
  let st1 :=
    if lookupKey st.voice_sessions key = none then
      { st with voice_sessions := (key, now) :: st.voice_sessions }
    else st
  { st1 with zero_mark := listRemove st1.zero_mark key }

/-- The lazy cache load of `on_voice_state_update` (main.py lines
1174-1176): load the guild's monitored channels on first event for the
guild, otherwise leave the cache alone. -/
def refresh_targets (st : BotState) (gid : Int) : BotState :=
  if targetsContains st.voice_targets gid then st
  else load_voice_targets_for_guild st gid

/-- Embedding of `on_voice_state_update` (main.py lines 1167-1194).
`before_ch`/`after_ch` are the left/joined voice channel ids (if any);
`now` is the processing instant (`utcnow()`).  DM events are outside the
model (every event carries a guild); bot members are dropped at entry. -/
def on_voice_state_update (st : BotState) (is_bot : Bool) (gid uid : Int)
    (before_ch after_ch : Option Int) (now : Int) : BotState :=
  if is_bot then st
  else
    let st1 := refresh_targets st gid
    let targets := targetsGet st1.voice_targets gid
    let st2 :=
      match before_ch with
      | some bc => if bc ∈ targets then session_close st1 gid bc uid now else st1
      | none => st1
    match after_ch with
    | some ac => if ac ∈ targets then session_open st2 gid ac uid now else st2
    | none => st2

/-- Embedding of `vt_zero` (main.py lines 500-515).  `voice_channel` is
the subject's current voice channel (resolved by the platform), `none`
when the subject is in no voice channel.  The returned `Bool` is whether
the command was accepted (`true`) or rejected with an error message
(`false`). -/
def vt_zero (st : BotState) (gid uid : Int) (voice_channel : Option Int)
    (now : Int) : BotState × Bool :=
  match voice_channel with
  | none => (st, false)
  | some cid =>
    if cid ∈ targetsGet st.voice_targets gid then
      let key : VKey := (gid, cid, uid)
      let st1 :=
        if lookupKey st.voice_sessions key = none then
          { st with voice_sessions := (key, now) :: st.voice_sessions }
        else st
      ({ st1 with zero_mark := listAdd st1.zero_mark key }, true)
    else (st, false)

/-- Embedding of `vt_unzero` (main.py lines 517-529). -/
def vt_unzero (st : BotState) (gid uid : Int) (voice_channel : Option Int) :
    BotState × Bool :=
  match voice_channel with
  | none => (st, false)
  | some cid =>
    let key : VKey := (gid, cid, uid)
    if key ∈ st.zero_mark then
      ({ st with zero_mark := listRemove st.zero_mark key }, true)
    else (st, false)

/-- One externally triggered operation on the tracker state. -/
inductive BotOp where
  | voiceUpdate (is_bot : Bool) (gid uid : Int) (before_ch after_ch : Option Int)
      (now : Int)
  | zeroCmd (gid uid : Int) (voice_channel : Option Int) (now : Int)
  | unzeroCmd (gid uid : Int) (voice_channel : Option Int)
  | setVoiceCmd (gid cid : Int)

/-- Apply one operation. -/
def applyOp (st : BotState) : BotOp → BotState
  | .voiceUpdate b g u bc ac n => on_voice_state_update st b g u bc ac n
  | .zeroCmd g u vc n => (vt_zero st g u vc n).1
  | .unzeroCmd g u vc => (vt_unzero st g u vc).1
  | .setVoiceCmd g c => add_voice_target_channel st g c

/-- Process start: empty in-memory registries and `voice_sessions` table;
`tvc` is whatever the durable `target_voice_channels` table holds. -/
def initState (tvc : List (Int × Int)) : BotState :=
  ⟨[], [], [], tvc, []⟩

/-- Run a sequence of operations from process start. -/
def runOps (tvc : List (Int × Int)) (ops : List BotOp) : BotState :=
  ops.foldl applyOp (initState tvc)

/-! ## Helper lemmas -/

/-- With both bounds present the renumbered placeholders are `n+1, n+2`
and both parameters are appended: the statement is accepted. -/
theorem overlap_refs_ok_some_some (s e : Int) (n : Nat) :
    overlap_refs_ok (some s) (some e) n = true := by
  simp only [overlap_refs_ok, overlap_refs, overlap_extra, decide_eq_true_eq]
  simp [List.range_succ]

/-- With no bound present there is no condition: accepted. -/
theorem overlap_refs_ok_none_none (n : Nat) :
    overlap_refs_ok (none : Option Int) none n = true := by
  simp [overlap_refs_ok, overlap_refs, overlap_extra]

/-- The built statement is rejected exactly in the end-bound-only case:
`$Y` is renumbered to `n+2` but the single parameter sits at `n+1`. -/
theorem overlap_refs_ok_false_iff (s e : Option Int) (n : Nat) :
    overlap_refs_ok s e n = false ↔ (s = none ∧ e ≠ none) := by
  cases s <;> cases e <;>
    simp [overlap_refs_ok, overlap_refs, overlap_extra, List.range_succ,
      decide_eq_false_iff_not]

/-- A key is absent from the session dict iff it has no binding. -/
theorem lookupKey_eq_none_iff (l : List (VKey × Int)) (k : VKey) :
    lookupKey l k = none ↔ countKey l k = 0 := by
  induction l with
  | nil => simp [lookupKey, countKey]
  | cons p rest ih =>
    by_cases h : p.1 = k <;> simp [lookupKey, countKey, h, ih]

/-- Filtering never increases a key's binding count. -/
theorem countKey_filter_le (l : List (VKey × Int)) (p : VKey × Int → Bool)
    (k : VKey) : countKey (l.filter p) k ≤ countKey l k := by
  induction l with
  | nil => simp [countKey]
  | cons q rest ih =>
    rw [List.filter_cons]
    by_cases hq : p q = true <;> by_cases hk : q.1 = k <;>
        simp [hq, hk, countKey] <;> omega

/-- At-most-one-binding-per-key predicate on the session dict. -/
def KeysUnique (l : List (VKey × Int)) : Prop := ∀ k, countKey l k ≤ 1

theorem keysUnique_filter {l : List (VKey × Int)} (p : VKey × Int → Bool)
    (h : KeysUnique l) : KeysUnique (l.filter p) :=
  fun k => le_trans (countKey_filter_le l p k) (h k)

theorem keysUnique_insert {l : List (VKey × Int)} {k0 : VKey} (t : Int)
    (h : KeysUnique l) (h0 : lookupKey l k0 = none) :
    KeysUnique ((k0, t) :: l) := by
  intro k
  simp only [countKey]
  by_cases hk : k0 = k
  · subst hk
    have := (lookupKey_eq_none_iff l k0).mp h0
    simp [this]
  · simp only [hk, if_false]
    simpa using h k

theorem session_close_sessions (st : BotState) (gid bc uid now : Int) :
    (session_close st gid bc uid now).voice_sessions =
      eraseKey st.voice_sessions (gid, bc, uid) := by
  cases h : lookupKey st.voice_sessions (gid, bc, uid) <;>
    simp [session_close, h]

theorem session_close_zero_mark (st : BotState) (gid bc uid now : Int) :
    (session_close st gid bc uid now).zero_mark =
      listRemove st.zero_mark (gid, bc, uid) := by
  cases h : lookupKey st.voice_sessions (gid, bc, uid) <;>
    simp [session_close, h]

theorem session_close_targets (st : BotState) (gid bc uid now : Int) :
    (session_close st gid bc uid now).voice_targets = st.voice_targets := by
  cases h : lookupKey st.voice_sessions (gid, bc, uid) <;>
    simp [session_close, h]

theorem session_open_sessions (st : BotState) (gid ac uid now : Int) :
    (session_open st gid ac uid now).voice_sessions =
      (if lookupKey st.voice_sessions (gid, ac, uid) = none then
        ((gid, ac, uid), now) :: st.voice_sessions
      else st.voice_sessions) := by
  cases h : lookupKey st.voice_sessions (gid, ac, uid) <;>
    simp [session_open, h]

theorem session_open_zero_mark (st : BotState) (gid ac uid now : Int) :
    (session_open st gid ac uid now).zero_mark =
      listRemove st.zero_mark (gid, ac, uid) := by
  cases h : lookupKey st.voice_sessions (gid, ac, uid) <;>
    simp [session_open, h]

theorem load_targets_sessions (st : BotState) (gid : Int) :
    (load_voice_targets_for_guild st gid).voice_sessions = st.voice_sessions :=
  rfl

theorem mem_listRemove_self {α : Type} [DecidableEq α] (l : List α) (x : α) :
    x ∉ listRemove l x := by
  simp [listRemove, List.mem_filter]

theorem refresh_sessions (st : BotState) (gid : Int) :
    (refresh_targets st gid).voice_sessions = st.voice_sessions := by
  unfold refresh_targets
  split <;> rfl

theorem refresh_zero_mark (st : BotState) (gid : Int) :
    (refresh_targets st gid).zero_mark = st.zero_mark := by
  unfold refresh_targets
  split <;> rfl

theorem refresh_db (st : BotState) (gid : Int) :
    (refresh_targets st gid).db_voice_sessions = st.db_voice_sessions := by
  unfold refresh_targets
  split <;> rfl

theorem session_open_db (st : BotState) (gid ac uid now : Int) :
    (session_open st gid ac uid now).db_voice_sessions = st.db_voice_sessions := by
  cases h : lookupKey st.voice_sessions (gid, ac, uid) <;>
    simp [session_open, h]

theorem session_open_targets (st : BotState) (gid ac uid now : Int) :
    (session_open st gid ac uid now).voice_targets = st.voice_targets := by
  cases h : lookupKey st.voice_sessions (gid, ac, uid) <;>
    simp [session_open, h]

theorem session_close_db (st : BotState) (gid bc uid now : Int) :
    (session_close st gid bc uid now).db_voice_sessions =
      st.db_voice_sessions ++
        (match lookupKey st.voice_sessions (gid, bc, uid) with
         | some t =>
           (save_voice_session gid bc uid t now
             (decide ((gid, bc, uid) ∈ st.zero_mark))).toList
         | none => []) := by
  cases h : lookupKey st.voice_sessions (gid, bc, uid) <;>
    simp [session_close, h]

/-- The bot-member guard (main.py lines 1170-1171): events for bot
members change nothing. -/
theorem ovsu_bot (st : BotState) (gid uid : Int) (bc ac : Option Int)
    (now : Int) : on_voice_state_update st true gid uid bc ac now = st := by
  simp [on_voice_state_update]

/-- Definitional shape of a non-bot event: lazy target load, then the
close phase on the left channel, then the open phase on the joined
channel. -/
theorem ovsu_eq (st : BotState) (gid uid : Int) (bc ac : Option Int)
    (now : Int) :
    on_voice_state_update st false gid uid bc ac now =
      (let st1 := refresh_targets st gid
       let targets := targetsGet st1.voice_targets gid
       let st2 :=
         match bc with
         | some b => if b ∈ targets then session_close st1 gid b uid now else st1
         | none => st1
       match ac with
       | some a => if a ∈ targets then session_open st2 gid a uid now else st2
       | none => st2) :=
  rfl

theorem lookupKey_eraseKey_self (l : List (VKey × Int)) (k : VKey) :
    lookupKey (eraseKey l k) k = none := by
  induction l with
  | nil => rfl
  | cons p rest ih =>
    by_cases h : p.1 = k <;>
      simp [eraseKey, List.filter_cons, h, lookupKey, ih] <;>
      simpa [eraseKey] using ih

/-- The guild's monitored-channel set as seen by the ingress handler,
after the lazy cache load. -/
def effective_targets (st : BotState) (gid : Int) : List Int :=
  targetsGet (refresh_targets st gid).voice_targets gid

/-! ## Claims -/

/-- Claim C2: `save_voice_session` persists exactly one `end = start` row
when the zero flag is set, silently persists nothing when the flag is
unset and `end ≤ start`, and otherwise persists exactly one
`(start, end)` row.  (`some r` = exactly one inserted row; `none` = no
row; the function is total, so no error is raised.) -/
theorem C2_save_voice_session_postcondition (gid cid uid s e : Int) :
    save_voice_session gid cid uid s e true = some ⟨gid, cid, uid, s, s⟩ ∧
    (e ≤ s → save_voice_session gid cid uid s e false = none) ∧
    (s < e → save_voice_session gid cid uid s e false = some ⟨gid, cid, uid, s, e⟩) := by
  refine ⟨?_, fun h => ?_, fun h => ?_⟩
  · simp [save_voice_session]
  · simp [save_voice_session, h]
  · simp [save_voice_session]
    omega

/-- Witness for C2 at concrete inputs. -/
theorem C2_save_voice_session_postcondition_witness :
    save_voice_session 1 2 3 10 99 true = some ⟨1, 2, 3, 10, 10⟩ ∧
    save_voice_session 1 2 3 10 5 false = none ∧
    save_voice_session 1 2 3 10 99 false = some ⟨1, 2, 3, 10, 99⟩ :=
  ⟨(C2_save_voice_session_postcondition 1 2 3 10 99).1,
   (C2_save_voice_session_postcondition 1 2 3 10 5).2.1 (by decide),
   (C2_save_voice_session_postcondition 1 2 3 10 99).2.2 (by decide)⟩

/-- Claim C4: `build_utc_range` maps the "from" date to that date's
UTC+9 midnight expressed in UTC (inclusive lower bound), the "to" date to
the following day's UTC+9 midnight in UTC (exclusive upper bound), and an
absent date to an unbounded side; date `2024-01-02` yields the UTC window
`[2024-01-01T15:00Z, 2024-01-02T15:00Z)` (epoch seconds `1704121200` and
`1704207600`). -/
theorem C4_build_utc_range_fixed_utc9_window :
    (∀ fs ts : Option String,
        build_utc_range fs ts =
          ((parse_ymd fs).map jst_day_start_utc,
           (parse_ymd ts).map jst_day_end_exclusive_utc)) ∧
    (∀ dt : Ymd, jst_day_start_utc dt = epochDay dt * 86400 - 9 * 3600) ∧
    (∀ dt : Ymd, jst_day_end_exclusive_utc dt = jst_day_start_utc dt + 86400) ∧
    build_utc_range (some "2024-01-02") (some "2024-01-02") =
      (some 1704121200, some 1704207600) := by
  refine ⟨fun fs ts => rfl, fun dt => rfl, fun dt => ?_, by decide⟩
  simp only [jst_day_end_exclusive_utc, jst_day_start_utc]
  ring

/-- Claim C8, counterexample: a malformed "from" date together with a
valid "to" date does NOT leave the query running unbounded: the bound is
dropped, which leaves an end-bound-only window, whose built statement
references placeholder `$4` while holding three parameters — the query is
rejected with an error (`none`) instead of returning a result. -/
theorem C8_malformed_from_with_valid_to_errors :
    parse_ymd (some "oops") = none ∧
    (build_utc_range (some "oops") (some "2100-01-01")).1 = none ∧
    total_seconds_user [⟨1, 2, 3, 0, 125⟩] 1 3
      (some "oops") (some "2100-01-01") = none := by
  decide

/-- Claim C8 as amended: `parse_ymd` totally maps malformed or empty
input to `none` and the query operations treat such a bound as absent —
each query behaves exactly as if that date parameter had been omitted.
This does not prevent errors: when the resulting window retains only a
"to" bound, the placeholder renumbering leaves a parameter-index gap and
the query is rejected with an error; with both bounds absent or
unparseable the query runs unbounded. -/
theorem C8_amended_unparseable_treated_absent :
    (∀ s ts, parse_ymd (some s) = none → (build_utc_range (some s) ts).1 = none) ∧
    (∀ fs s, parse_ymd (some s) = none → (build_utc_range fs (some s)).2 = none) ∧
    (∀ (db : List SRow) (gid uid : Int) (s : String) (ts : Option String),
        parse_ymd (some s) = none →
        total_seconds_user db gid uid (some s) ts =
          total_seconds_user db gid uid none ts) ∧
    (∀ (db : List SRow) (gid uid : Int) (fs : Option String) (s : String),
        parse_ymd (some s) = none →
        total_seconds_user db gid uid fs (some s) =
          total_seconds_user db gid uid fs none) ∧
    (∀ (db : List SRow) (gid uid : Int) (s s' : String),
        parse_ymd (some s) = none → parse_ymd (some s') = none →
        total_seconds_user db gid uid (some s) (some s') =
          some (((where_guild_user db gid uid none none).map
            (fun r => r.end_utc - r.start_utc)).sum)) ∧
    parse_ymd none = none ∧
    parse_ymd (some "") = none ∧
    parse_ymd (some "2024/01/02") = none ∧
    parse_ymd (some "2024-13-01") = none ∧
    parse_ymd (some "2024-02-30") = none ∧
    parse_ymd (some "999-01-02") = none ∧
    parse_ymd (some "not-a-date") = none := by
  refine ⟨fun s ts h => ?_, fun fs s h => ?_,
    fun db gid uid s ts h => ?_, fun db gid uid fs s h => ?_,
    fun db gid uid s s' h h' => ?_,
    rfl, by decide, by decide, by decide, by decide, by decide, by decide⟩
  · simp [build_utc_range, h]
  · simp [build_utc_range, h]
  · simp [total_seconds_user, build_utc_range, h,
      show parse_ymd none = none from rfl]
  · simp [total_seconds_user, build_utc_range, h,
      show parse_ymd none = none from rfl]
  · simp [total_seconds_user, build_utc_range, h, h',
      overlap_refs_ok_none_none]

/-- Witness for the amended C8 at concrete inputs: the malformed "from"
behaves exactly like an omitted one (here: both error), and two malformed
bounds run unbounded. -/
theorem C8_amended_unparseable_treated_absent_witness :
    total_seconds_user [⟨1, 2, 3, 0, 125⟩] 1 3
        (some "oops") (some "2100-01-01") =
      total_seconds_user [⟨1, 2, 3, 0, 125⟩] 1 3 none (some "2100-01-01") ∧
    total_seconds_user [⟨1, 2, 3, 0, 125⟩] 1 3 (some "oops") (some "bad") =
      some 125 :=
  ⟨C8_amended_unparseable_treated_absent.2.2.1 [⟨1, 2, 3, 0, 125⟩] 1 3
      "oops" (some "2100-01-01") (by decide),
   C8_amended_unparseable_treated_absent.2.2.2.2.1 [⟨1, 2, 3, 0, 125⟩] 1 3
      "oops" "bad" (by decide) (by decide)⟩

/-- Claim C10: `/vt zero` for a subject whose current voice channel is not
in the guild's monitored set is rejected (`false` response) and leaves the
whole state unchanged: no session is synthesized and no zero-mark is set. -/
theorem C10_vt_zero_rejects_unmonitored (st : BotState) (gid uid cid now : Int)
    (h : cid ∉ targetsGet st.voice_targets gid) :
    vt_zero st gid uid (some cid) now = (st, false) := by
  simp [vt_zero, h]

/-- Witness for C10 at a concrete state. -/
theorem C10_vt_zero_rejects_unmonitored_witness :
    vt_zero ⟨[], [], [(1, [2])], [(1, 2)], []⟩ 1 3 (some 7) 50 =
      (⟨[], [], [(1, [2])], [(1, 2)], []⟩, false) :=
  C10_vt_zero_rejects_unmonitored ⟨[], [], [(1, [2])], [(1, 2)], []⟩ 1 3 7 50
    (by decide)

/-- Claim C5, counterexample: a duplicate open (enter event for a key
whose session is already open) is NOT a no-op on the whole registry: at
this concrete state it keeps the recorded start but clears the key's
zero-mark flag (main.py line 1194 discards the mark unconditionally). -/
theorem C5_duplicate_open_not_registry_noop :
    lookupKey (on_voice_state_update ⟨[((1, 2, 3), 5)], [(1, 2, 3)], [(1, [2])],
        [(1, 2)], []⟩ false 1 3 none (some 2) 50).voice_sessions (1, 2, 3) = some 5 ∧
    ((1, 2, 3) : VKey) ∈ (⟨[((1, 2, 3), 5)], [(1, 2, 3)], [(1, [2])],
        [(1, 2)], []⟩ : BotState).zero_mark ∧
    ((1, 2, 3) : VKey) ∉ (on_voice_state_update ⟨[((1, 2, 3), 5)], [(1, 2, 3)],
        [(1, [2])], [(1, 2)], []⟩ false 1 3 none (some 2) 50).zero_mark := by
  decide

/-- Claim C5 as amended: a duplicate open on a monitored channel leaves
the recorded start timestamp unchanged, but it clears the key's zero-mark
flag (it does not leave it unchanged). -/
theorem C5_amended_duplicate_open_keeps_start_clears_mark
    (st : BotState) (gid cid uid t1 now : Int)
    (hmon : cid ∈ effective_targets st gid)
    (hopen : lookupKey st.voice_sessions (gid, cid, uid) = some t1) :
    lookupKey (on_voice_state_update st false gid uid none (some cid)
        now).voice_sessions (gid, cid, uid) = some t1 ∧
    (gid, cid, uid) ∉ (on_voice_state_update st false gid uid none (some cid)
        now).zero_mark := by
  rw [ovsu_eq]
  simp only [effective_targets] at hmon
  simp only [if_pos hmon]
  have hs : lookupKey (refresh_targets st gid).voice_sessions (gid, cid, uid) =
      some t1 := by rw [refresh_sessions]; exact hopen
  constructor
  · rw [session_open_sessions, if_neg (by simp [hs]), hs]
  · rw [session_open_zero_mark]
    exact mem_listRemove_self _ _

/-- Witness for the amended C5 at a concrete state. -/
theorem C5_amended_duplicate_open_keeps_start_clears_mark_witness :
    lookupKey (on_voice_state_update ⟨[((1, 2, 3), 5)], [(1, 2, 3)], [(1, [2])],
        [(1, 2)], []⟩ false 1 3 none (some 2) 50).voice_sessions (1, 2, 3) = some 5 ∧
    ((1, 2, 3) : VKey) ∉ (on_voice_state_update ⟨[((1, 2, 3), 5)], [(1, 2, 3)],
        [(1, [2])], [(1, 2)], []⟩ false 1 3 none (some 2) 50).zero_mark :=
  C5_amended_duplicate_open_keeps_start_clears_mark
    ⟨[((1, 2, 3), 5)], [(1, 2, 3)], [(1, [2])], [(1, 2)], []⟩ 1 2 3 5 50
    (by decide) (by decide)

/-- Claim C9: ingress ignores bot members entirely; a left zone outside
the monitored set is treated exactly like no left zone (and likewise for
the joined zone), so unmonitored zones never change the session registry
(an event with no monitored zone leaves sessions, zero-marks and the
stored intervals untouched, only the target cache may get populated); and
the close of the left-zone key runs before the open of the joined-zone
key, observable on a same-channel move: the old session is finalized and
a fresh one started at the event instant. -/
theorem C9_ingress_bot_filter_and_order :
    (∀ (st : BotState) (gid uid : Int) (bc ac : Option Int) (now : Int),
        on_voice_state_update st true gid uid bc ac now = st) ∧
    (∀ (st : BotState) (gid uid b : Int) (ac : Option Int) (now : Int),
        b ∉ effective_targets st gid →
        on_voice_state_update st false gid uid (some b) ac now =
          on_voice_state_update st false gid uid none ac now) ∧
    (∀ (st : BotState) (gid uid : Int) (bc : Option Int) (a now : Int),
        a ∉ effective_targets st gid →
        on_voice_state_update st false gid uid bc (some a) now =
          on_voice_state_update st false gid uid bc none now) ∧
    (∀ (st : BotState) (gid uid now : Int),
        (on_voice_state_update st false gid uid none none now).voice_sessions =
          st.voice_sessions ∧
        (on_voice_state_update st false gid uid none none now).zero_mark =
          st.zero_mark ∧
        (on_voice_state_update st false gid uid none none now).db_voice_sessions =
          st.db_voice_sessions) ∧
    (∀ (st : BotState) (gid uid c t1 now : Int),
        c ∈ effective_targets st gid →
        lookupKey st.voice_sessions (gid, c, uid) = some t1 →
        (gid, c, uid) ∉ st.zero_mark → t1 < now →
        lookupKey (on_voice_state_update st false gid uid (some c) (some c)
            now).voice_sessions (gid, c, uid) = some now ∧
        (on_voice_state_update st false gid uid (some c) (some c)
            now).db_voice_sessions =
          st.db_voice_sessions ++ [⟨gid, c, uid, t1, now⟩]) := by
  refine ⟨ovsu_bot, ?_, ?_, ?_, ?_⟩
  · intro st gid uid b ac now h
    simp only [effective_targets] at h
    rw [ovsu_eq, ovsu_eq]
    simp [h]
  · intro st gid uid bc a now h
    simp only [effective_targets] at h
    rw [ovsu_eq, ovsu_eq]
    simp [h]
  · intro st gid uid now
    refine ⟨?_, ?_, ?_⟩ <;> rw [ovsu_eq] <;>
      simp [refresh_sessions, refresh_zero_mark, refresh_db]
  · intro st gid uid c t1 now hmem hopen hz ht
    simp only [effective_targets] at hmem
    rw [ovsu_eq]
    simp only [if_pos hmem]
    have h1 : lookupKey (refresh_targets st gid).voice_sessions (gid, c, uid) =
        some t1 := by rw [refresh_sessions]; exact hopen
    have he : lookupKey (session_close (refresh_targets st gid) gid c uid
        now).voice_sessions (gid, c, uid) = none := by
      rw [session_close_sessions]
      exact lookupKey_eraseKey_self _ _
    constructor
    · rw [session_open_sessions, if_pos he]
      simp [lookupKey]
    · rw [session_open_db, session_close_db, refresh_db, h1]
      have hz1 : decide ((gid, c, uid) ∈ (refresh_targets st gid).zero_mark) =
          false := by
        rw [refresh_zero_mark]
        exact decide_eq_false hz
      rw [hz1]
      have : ¬(now ≤ t1) := by omega
      simp [save_voice_session, this]

/-- Witness for C9 at a concrete state and event. -/
theorem C9_ingress_bot_filter_and_order_witness :
    on_voice_state_update ⟨[((1, 2, 3), 5)], [], [(1, [2])], [(1, 2)], []⟩
        false 1 3 (some 7) none 50 =
      on_voice_state_update ⟨[((1, 2, 3), 5)], [], [(1, [2])], [(1, 2)], []⟩
        false 1 3 none none 50 ∧
    lookupKey (on_voice_state_update ⟨[((1, 2, 3), 5)], [], [(1, [2])],
        [(1, 2)], []⟩ false 1 3 (some 2) (some 2) 50).voice_sessions (1, 2, 3) =
      some 50 ∧
    (on_voice_state_update ⟨[((1, 2, 3), 5)], [], [(1, [2])], [(1, 2)], []⟩
        false 1 3 (some 2) (some 2) 50).db_voice_sessions =
      [⟨1, 2, 3, 5, 50⟩] := by
  refine ⟨?_, ?_, ?_⟩
  · exact C9_ingress_bot_filter_and_order.2.1
      ⟨[((1, 2, 3), 5)], [], [(1, [2])], [(1, 2)], []⟩ 1 3 7 none 50 (by decide)
  · exact (C9_ingress_bot_filter_and_order.2.2.2.2
      ⟨[((1, 2, 3), 5)], [], [(1, [2])], [(1, 2)], []⟩ 1 3 2 5 50
      (by decide) (by decide) (by decide) (by decide)).1
  · exact (C9_ingress_bot_filter_and_order.2.2.2.2
      ⟨[((1, 2, 3), 5)], [], [(1, [2])], [(1, 2)], []⟩ 1 3 2 5 50
      (by decide) (by decide) (by decide) (by decide)).2

/-! ### Preservation of the one-open-session-per-key invariant -/

theorem keysUnique_session_close (st : BotState) (gid bc uid now : Int)
    (h : KeysUnique st.voice_sessions) :
    KeysUnique (session_close st gid bc uid now).voice_sessions := by
  rw [session_close_sessions]
  exact keysUnique_filter _ h

theorem keysUnique_session_open (st : BotState) (gid ac uid now : Int)
    (h : KeysUnique st.voice_sessions) :
    KeysUnique (session_open st gid ac uid now).voice_sessions := by
  rw [session_open_sessions]
  by_cases hl : lookupKey st.voice_sessions (gid, ac, uid) = none
  · rw [if_pos hl]
    exact keysUnique_insert _ h hl
  · rw [if_neg hl]
    exact h

theorem keysUnique_ovsu (st : BotState) (b : Bool) (gid uid : Int)
    (bc ac : Option Int) (now : Int) (h : KeysUnique st.voice_sessions) :
    KeysUnique (on_voice_state_update st b gid uid bc ac now).voice_sessions := by
  cases b with
  | true => rw [ovsu_bot]; exact h
  | false =>
    rw [ovsu_eq]
    have h1 : KeysUnique (refresh_targets st gid).voice_sessions := by
      rw [refresh_sessions]; exact h
    cases bc with
    | none =>
      cases ac with
      | none => exact h1
      | some ach =>
        by_cases ha : ach ∈ targetsGet (refresh_targets st gid).voice_targets gid
        · simp only [ha, if_true]
          exact keysUnique_session_open _ _ _ _ _ h1
        · simp only [ha, if_false]
          exact h1
    | some bch =>
      by_cases hb : bch ∈ targetsGet (refresh_targets st gid).voice_targets gid <;>
        cases ac with
      | none =>
        simp only [hb, if_true, if_false]
        first
        | exact keysUnique_session_close _ _ _ _ _ h1
        | exact h1
      | some ach =>
        by_cases ha : ach ∈ targetsGet (refresh_targets st gid).voice_targets gid <;>
          simp only [hb, ha, if_true, if_false] <;>
          first
          | exact keysUnique_session_open _ _ _ _ _
              (keysUnique_session_close _ _ _ _ _ h1)
          | exact keysUnique_session_open _ _ _ _ _ h1
          | exact keysUnique_session_close _ _ _ _ _ h1
          | exact h1

theorem vt_zero_sessions (st : BotState) (gid uid cid now : Int) :
    ((vt_zero st gid uid (some cid) now).1).voice_sessions =
      (if cid ∈ targetsGet st.voice_targets gid ∧
          lookupKey st.voice_sessions (gid, cid, uid) = none then
        ((gid, cid, uid), now) :: st.voice_sessions
      else st.voice_sessions) := by
  by_cases h1 : cid ∈ targetsGet st.voice_targets gid <;>
    by_cases h2 : lookupKey st.voice_sessions (gid, cid, uid) = none <;>
    simp [vt_zero, h1, h2]

theorem keysUnique_vt_zero (st : BotState) (gid uid : Int) (vc : Option Int)
    (now : Int) (h : KeysUnique st.voice_sessions) :
    KeysUnique ((vt_zero st gid uid vc now).1).voice_sessions := by
  cases vc with
  | none => exact h
  | some cid =>
    rw [vt_zero_sessions]
    by_cases hc : cid ∈ targetsGet st.voice_targets gid ∧
        lookupKey st.voice_sessions (gid, cid, uid) = none
    · rw [if_pos hc]
      exact keysUnique_insert _ h hc.2
    · rw [if_neg hc]
      exact h

theorem vt_unzero_sessions (st : BotState) (gid uid : Int) (vc : Option Int) :
    ((vt_unzero st gid uid vc).1).voice_sessions = st.voice_sessions := by
  cases vc with
  | none => rfl
  | some cid =>
    by_cases h : ((gid, cid, uid) : VKey) ∈ st.zero_mark <;>
      simp [vt_unzero, h]

theorem keysUnique_applyOp (st : BotState) (op : BotOp)
    (h : KeysUnique st.voice_sessions) :
    KeysUnique (applyOp st op).voice_sessions := by
  cases op with
  | voiceUpdate b g u bc ac n => exact keysUnique_ovsu st b g u bc ac n h
  | zeroCmd g u vc n => exact keysUnique_vt_zero st g u vc n h
  | unzeroCmd g u vc =>
    simp only [applyOp]
    rw [vt_unzero_sessions]
    exact h
  | setVoiceCmd g c => exact h

theorem keysUnique_foldl (ops : List BotOp) :
    ∀ st : BotState, KeysUnique st.voice_sessions →
      KeysUnique (ops.foldl applyOp st).voice_sessions := by
  induction ops with
  | nil => exact fun st h => h
  | cons op rest ih =>
    intro st h
    exact ih _ (keysUnique_applyOp st op h)

/-- Claim C1: over every operation sequence from process start (ingress
events, `/vt zero`, `/vt unzero`, `/vt set-voice`), each key has at most
one open session at any instant; and an open on a key whose session is
already open — whether an ingress enter event or the synthesized open of
`/vt zero` — leaves the recorded start timestamp at its original value. -/
theorem C1_at_most_one_open_session :
    (∀ (tvc : List (Int × Int)) (ops : List BotOp) (k : VKey),
        countKey (runOps tvc ops).voice_sessions k ≤ 1) ∧
    (∀ (st : BotState) (gid cid uid t1 now : Int),
        lookupKey st.voice_sessions (gid, cid, uid) = some t1 →
        lookupKey (on_voice_state_update st false gid uid none (some cid)
            now).voice_sessions (gid, cid, uid) = some t1 ∧
        lookupKey ((vt_zero st gid uid (some cid) now).1).voice_sessions
            (gid, cid, uid) = some t1) := by
  constructor
  · intro tvc ops k
    refine keysUnique_foldl ops (initState tvc) ?_ k
    intro k0
    simp [initState, countKey]
  · intro st gid cid uid t1 now hopen
    constructor
    · rw [ovsu_eq]
      have hs : lookupKey (refresh_targets st gid).voice_sessions
          (gid, cid, uid) = some t1 := by rw [refresh_sessions]; exact hopen
      by_cases hm : cid ∈ targetsGet (refresh_targets st gid).voice_targets gid
      · simp only [if_pos hm]
        rw [session_open_sessions, if_neg (by simp [hs]), hs]
      · simp only [if_neg hm]
        exact hs
    · rw [vt_zero_sessions]
      rw [if_neg (by simp [hopen])]
      exact hopen

/-- Witness for C1 at a concrete state (both kinds of duplicate open). -/
theorem C1_at_most_one_open_session_witness :
    lookupKey (on_voice_state_update ⟨[((1, 2, 3), 5)], [], [(1, [2])],
        [(1, 2)], []⟩ false 1 3 none (some 2) 50).voice_sessions (1, 2, 3) =
      some 5 ∧
    lookupKey ((vt_zero ⟨[((1, 2, 3), 5)], [], [(1, [2])], [(1, 2)], []⟩
        1 3 (some 2) 50).1).voice_sessions (1, 2, 3) = some 5 :=
  C1_at_most_one_open_session.2
    ⟨[((1, 2, 3), 5)], [], [(1, [2])], [(1, 2)], []⟩ 1 2 3 5 50 (by decide)

/-! ### The window filter in explicit predicate form -/

theorem where_guild_user_eq (db : List SRow) (gid uid s e : Int) :
    where_guild_user db gid uid (some s) (some e) =
      db.filter (fun r => decide (r.guild_id = gid ∧ r.user_id = uid ∧
        s < r.end_utc ∧ r.start_utc < e)) := by
  unfold where_guild_user
  refine List.filter_congr ?_
  intro r _
  by_cases h1 : r.guild_id = gid <;> by_cases h2 : r.user_id = uid <;>
    by_cases h3 : s < r.end_utc <;> by_cases h4 : r.start_utc < e <;>
    simp [overlap_cond_sql, h1, h2, h3, h4]

theorem where_guild_eq (db : List SRow) (gid s e : Int) :
    where_guild db gid (some s) (some e) =
      db.filter (fun r => decide (r.guild_id = gid ∧
        s < r.end_utc ∧ r.start_utc < e)) := by
  unfold where_guild
  refine List.filter_congr ?_
  intro r _
  by_cases h1 : r.guild_id = gid <;> by_cases h3 : s < r.end_utc <;>
    by_cases h4 : r.start_utc < e <;>
    simp [overlap_cond_sql, h1, h3, h4]

theorem where_channel_eq (db : List SRow) (gid uid s e c : Int) :
    (where_guild_user db gid uid (some s) (some e)).filter
        (fun r => decide (r.channel_id = c)) =
      db.filter (fun r => decide (r.guild_id = gid ∧ r.user_id = uid ∧
        r.channel_id = c ∧ s < r.end_utc ∧ r.start_utc < e)) := by
  rw [where_guild_user_eq, List.filter_filter]
  refine List.filter_congr ?_
  intro r _
  by_cases h1 : r.guild_id = gid <;> by_cases h2 : r.user_id = uid <;>
    by_cases h3 : s < r.end_utc <;> by_cases h4 : r.start_utc < e <;>
    by_cases h5 : r.channel_id = c <;>
    simp [h1, h2, h3, h4, h5]

theorem where_user_eq (db : List SRow) (gid s e u : Int) :
    (where_guild db gid (some s) (some e)).filter
        (fun r => decide (r.user_id = u)) =
      db.filter (fun r => decide (r.guild_id = gid ∧ r.user_id = u ∧
        s < r.end_utc ∧ r.start_utc < e)) := by
  rw [where_guild_eq, List.filter_filter]
  refine List.filter_congr ?_
  intro r _
  by_cases h1 : r.guild_id = gid <;> by_cases h2 : r.user_id = u <;>
    by_cases h3 : s < r.end_utc <;> by_cases h4 : r.start_utc < e <;>
    simp [h1, h2, h3, h4]

/-- Claim C3: for a window `[s, e)` the queries select a stored interval
iff `end_utc > s AND start_utc < e`, and every selected interval
contributes its full `end_utc - start_utc` to the sums — never a portion
clipped to the window: this holds for `total_seconds_user`, for every
per-channel group sum of `total_seconds_per_channel_user`, and for every
per-user group sum of `top_users_between`. -/
theorem C3_overlap_unclipped_full_duration (db : List SRow) (gid uid s e : Int) :
    (∀ r : SRow, r ∈ where_guild_user db gid uid (some s) (some e) ↔
        (r ∈ db ∧ r.guild_id = gid ∧ r.user_id = uid ∧
         s < r.end_utc ∧ r.start_utc < e)) ∧
    (∀ fs ts, build_utc_range fs ts = (some s, some e) →
        total_seconds_user db gid uid fs ts =
          some (((db.filter (fun r => decide (r.guild_id = gid ∧ r.user_id = uid ∧
              s < r.end_utc ∧ r.start_utc < e))).map
            (fun r => r.end_utc - r.start_utc)).sum)) ∧
    (∀ (fs ts : Option String) (n : Nat) (out : List (Int × Int)),
        build_utc_range fs ts = (some s, some e) →
        total_seconds_per_channel_user db gid uid n fs ts (some out) →
        ∀ p ∈ out, p.2 =
          ((db.filter (fun r => decide (r.guild_id = gid ∧ r.user_id = uid ∧
              r.channel_id = p.1 ∧ s < r.end_utc ∧ r.start_utc < e))).map
            (fun r => r.end_utc - r.start_utc)).sum) ∧
    (∀ (fs ts : Option String) (n : Nat) (out : List (Int × Int)),
        build_utc_range fs ts = (some s, some e) →
        top_users_between db gid n fs ts (some out) →
        ∀ p ∈ out, p.2 =
          ((db.filter (fun r => decide (r.guild_id = gid ∧ r.user_id = p.1 ∧
              s < r.end_utc ∧ r.start_utc < e))).map
            (fun r => r.end_utc - r.start_utc)).sum) := by
  refine ⟨?_, ?_, ?_, ?_⟩
  · intro r
    rw [where_guild_user_eq]
    simp [List.mem_filter]
  · intro fs ts hw
    simp [total_seconds_user, hw, overlap_refs_ok_some_some, where_guild_user_eq]
  · intro fs ts n out hw hrel p hp
    simp only [total_seconds_per_channel_user, hw, overlap_refs_ok_some_some,
      if_true, Option.some.injEq] at hrel
    obtain ⟨l, hperm, -, hout⟩ := hrel
    subst hout
    have hp3 : p ∈ per_channel_groups db gid uid (some s) (some e) :=
      hperm.mem_iff.mp (List.mem_of_mem_take hp)
    simp only [per_channel_groups, List.mem_map] at hp3
    obtain ⟨c, -, hcp⟩ := hp3
    subst hcp
    rw [where_channel_eq]
  · intro fs ts n out hw hrel p hp
    simp only [top_users_between, hw, overlap_refs_ok_some_some,
      if_true, Option.some.injEq] at hrel
    obtain ⟨l, hperm, -, hout⟩ := hrel
    subst hout
    have hp3 : p ∈ per_user_groups db gid (some s) (some e) :=
      hperm.mem_iff.mp (List.mem_of_mem_take hp)
    simp only [per_user_groups, List.mem_map] at hp3
    obtain ⟨u, -, hcp⟩ := hp3
    subst hcp
    rw [where_user_eq]

/-- Witness for C3 at a concrete database and window
(`1970-01-01` in UTC+9 gives the UTC window `[-32400, 54000)`). -/
theorem C3_overlap_unclipped_full_duration_witness :
    total_seconds_user [⟨1, 2, 3, 0, 125⟩] 1 3
        (some "1970-01-01") (some "1970-01-01") =
      some (((([⟨1, 2, 3, 0, 125⟩] : List SRow).filter
          (fun (r : SRow) => decide (r.guild_id = 1 ∧ r.user_id = 3 ∧
            (-32400 : Int) < r.end_utc ∧ r.start_utc < 54000))).map
        (fun (r : SRow) => r.end_utc - r.start_utc)).sum) :=
  (C3_overlap_unclipped_full_duration [⟨1, 2, 3, 0, 125⟩] 1 3 (-32400) 54000).2.1
    (some "1970-01-01") (some "1970-01-01") (by decide)

/-- Claim C7, counterexample: `ORDER BY sec DESC ... LIMIT n` fixes no
order among groups with equal sums, so the query result is not a
deterministic function of the stored intervals and parameters: for this
database two different outputs are both admissible results of
`total_seconds_per_channel_user`. -/
theorem C7_tie_order_not_deterministic :
    total_seconds_per_channel_user [⟨1, 10, 5, 0, 100⟩, ⟨1, 20, 5, 0, 100⟩]
      1 5 10 none none (some [(10, 100), (20, 100)]) ∧
    total_seconds_per_channel_user [⟨1, 10, 5, 0, 100⟩, ⟨1, 20, 5, 0, 100⟩]
      1 5 10 none none (some [(20, 100), (10, 100)]) ∧
    (some [(10, 100), (20, 100)] : Option (List (Int × Int))) ≠
      some [(20, 100), (10, 100)] := by
  refine ⟨?_, ?_, by decide⟩ <;>
    · simp only [total_seconds_per_channel_user]
      rw [if_pos (by decide)]
      first
      | exact ⟨[(10, 100), (20, 100)], by decide, by decide, by decide⟩
      | exact ⟨[(20, 100), (10, 100)], by decide, by decide, by decide⟩

/-- Claim C7 as amended: `total_seconds_per_channel_user` and
`top_users_between` return lists sorted in descending order of summed
seconds, limited to at most `n` entries; the order among entries with
equal sums is left unspecified by the query. -/
theorem C7_amended_sorted_desc_limited (db : List SRow) (gid uid : Int)
    (n : Nat) (fs ts : Option String) (outc outu : List (Int × Int))
    (hc : total_seconds_per_channel_user db gid uid n fs ts (some outc))
    (hu : top_users_between db gid n fs ts (some outu)) :
    outc.Pairwise (fun a b => b.2 ≤ a.2) ∧ outc.length ≤ n ∧
    outu.Pairwise (fun a b => b.2 ≤ a.2) ∧ outu.length ≤ n := by
  simp only [total_seconds_per_channel_user, Option.some.injEq] at hc
  simp only [top_users_between, Option.some.injEq] at hu
  split at hc
  · split at hu
    · obtain ⟨l, -, hs, ho⟩ := hc
      obtain ⟨l2, -, hs2, ho2⟩ := hu
      subst ho ho2
      exact ⟨List.Pairwise.sublist (List.take_sublist n l) hs,
        List.length_take_le n l,
        List.Pairwise.sublist (List.take_sublist n l2) hs2,
        List.length_take_le n l2⟩
    · simp at hu
  · simp at hc

/-- Witness for the amended C7 at a concrete database. -/
theorem C7_amended_sorted_desc_limited_witness :
    ([(10, 100), (20, 100)] : List (Int × Int)).Pairwise (fun a b => b.2 ≤ a.2) ∧
    ([(10, 100), (20, 100)] : List (Int × Int)).length ≤ 10 ∧
    ([(5, 200)] : List (Int × Int)).Pairwise (fun a b => b.2 ≤ a.2) ∧
    ([(5, 200)] : List (Int × Int)).length ≤ 10 :=
  C7_amended_sorted_desc_limited [⟨1, 10, 5, 0, 100⟩, ⟨1, 20, 5, 0, 100⟩]
    1 5 10 none none [(10, 100), (20, 100)] [(5, 200)]
    (by
      simp only [total_seconds_per_channel_user]
      rw [if_pos (by decide)]
      exact ⟨[(10, 100), (20, 100)], by decide, by decide, by decide⟩)
    (by
      simp only [top_users_between]
      rw [if_pos (by decide)]
      exact ⟨[(5, 200)], by decide, by decide, by decide⟩)

/-- Claim C6, counterexample: with only a "to" bound the export's built
statement references placeholder `$3` while holding two parameters, so
the query raises and emits no rows — while the aggregation overlap
filter matches one stored record: the emitted row count does not equal
the filter's match count there. -/
theorem C6_export_errors_on_to_only_window :
    (∀ rows : List SRow,
        ¬ vt_export [⟨1, 2, 3, 0, 125⟩] 1 none (some "2100-01-01") (some rows)) ∧
    vt_export [⟨1, 2, 3, 0, 125⟩] 1 none (some "2100-01-01") none ∧
    (where_guild [⟨1, 2, 3, 0, 125⟩] 1
      (build_utc_range none (some "2100-01-01")).1
      (build_utc_range none (some "2100-01-01")).2).length = 1 := by
  have hb : overlap_refs_ok (build_utc_range none (some "2100-01-01")).1
      (build_utc_range none (some "2100-01-01")).2 1 = false := by decide
  refine ⟨?_, ?_, by decide⟩
  · intro rows h
    simp only [vt_export, hb] at h
    simp at h
  · simp only [vt_export, hb]
    simp

/-- Claim C6 as amended: for identical parameters the export and the
aggregation queries accept exactly the same date windows — both are
rejected precisely on a window with only a "to" bound (the placeholder
gap), emitting nothing.  Whenever the export returns rows, their count
equals the number of records matched by the aggregation queries' overlap
filter (`vt_export` vs the guild-wide filter of `top_users_between`,
`vt_export_user` vs the per-user filter of `total_seconds_user`), the
rows come ordered by ascending start time, and each emitted CSV line's
duration column is `end_utc - start_utc`, non-negative whenever every
stored row satisfies `start_utc ≤ end_utc` (which `save_voice_session`
guarantees). -/
theorem C6_amended_export_matches_when_accepted (db : List SRow)
    (gid uid : Int) (fs ts : Option String)
    (hinv : ∀ r ∈ db, r.start_utc ≤ r.end_utc) :
    (total_seconds_user db gid uid fs ts = none ↔
      ((build_utc_range fs ts).1 = none ∧ (build_utc_range fs ts).2 ≠ none)) ∧
    (∀ out, vt_export db gid fs ts out →
      (out = none ↔
        ((build_utc_range fs ts).1 = none ∧ (build_utc_range fs ts).2 ≠ none))) ∧
    (∀ out, vt_export_user db gid uid fs ts out →
      (out = none ↔
        ((build_utc_range fs ts).1 = none ∧ (build_utc_range fs ts).2 ≠ none))) ∧
    (∀ rowsA, vt_export db gid fs ts (some rowsA) →
      rowsA.length = (where_guild db gid (build_utc_range fs ts).1
          (build_utc_range fs ts).2).length ∧
      rowsA.Pairwise (fun a b => a.start_utc ≤ b.start_utc) ∧
      (∀ line ∈ vt_export_csv rowsA,
        line.duration_sec = line.end_utc - line.start_utc ∧
        0 ≤ line.duration_sec)) ∧
    (∀ rowsU, vt_export_user db gid uid fs ts (some rowsU) →
      rowsU.length = (where_guild_user db gid uid (build_utc_range fs ts).1
          (build_utc_range fs ts).2).length ∧
      rowsU.Pairwise (fun a b => a.start_utc ≤ b.start_utc) ∧
      (∀ line ∈ vt_export_csv rowsU,
        line.duration_sec = line.end_utc - line.start_utc ∧
        0 ≤ line.duration_sec)) := by
  have herr1 := overlap_refs_ok_false_iff (build_utc_range fs ts).1
    (build_utc_range fs ts).2 1
  have herr2 := overlap_refs_ok_false_iff (build_utc_range fs ts).1
    (build_utc_range fs ts).2 2
  refine ⟨?_, ?_, ?_, ?_, ?_⟩
  · cases hb : overlap_refs_ok (build_utc_range fs ts).1
        (build_utc_range fs ts).2 2
    · exact iff_of_true (by simp [total_seconds_user, hb]) (herr2.mp hb)
    · have hne : ¬((build_utc_range fs ts).1 = none ∧
          (build_utc_range fs ts).2 ≠ none) := by
        intro hcontra
        rw [herr2.mpr hcontra] at hb
        cases hb
      exact iff_of_false (by simp [total_seconds_user, hb]) hne
  · intro out hvt
    simp only [vt_export] at hvt
    cases hb : overlap_refs_ok (build_utc_range fs ts).1
        (build_utc_range fs ts).2 1
    · simp only [hb, Bool.false_eq_true, if_false] at hvt
      subst hvt
      exact iff_of_true rfl (herr1.mp hb)
    · have hne : ¬((build_utc_range fs ts).1 = none ∧
          (build_utc_range fs ts).2 ≠ none) := by
        intro hcontra
        rw [herr1.mpr hcontra] at hb
        cases hb
      simp only [hb] at hvt
      obtain ⟨rows, -, -, hout⟩ := hvt
      subst hout
      exact iff_of_false (by simp) hne
  · intro out hvt
    simp only [vt_export_user] at hvt
    cases hb : overlap_refs_ok (build_utc_range fs ts).1
        (build_utc_range fs ts).2 2
    · simp only [hb, Bool.false_eq_true, if_false] at hvt
      subst hvt
      exact iff_of_true rfl (herr2.mp hb)
    · have hne : ¬((build_utc_range fs ts).1 = none ∧
          (build_utc_range fs ts).2 ≠ none) := by
        intro hcontra
        rw [herr2.mpr hcontra] at hb
        cases hb
      simp only [hb] at hvt
      obtain ⟨rows, -, -, hout⟩ := hvt
      subst hout
      exact iff_of_false (by simp) hne
  · intro rowsA hvt
    simp only [vt_export, Option.some.injEq] at hvt
    split at hvt
    · obtain ⟨rows, hperm, hsort, hout⟩ := hvt
      subst hout
      refine ⟨hperm.length_eq, hsort, ?_⟩
      intro line hline
      simp only [vt_export_csv, List.mem_map] at hline
      obtain ⟨r, hr, hlr⟩ := hline
      subst hlr
      refine ⟨rfl, ?_⟩
      have hrdb : r ∈ db := by
        have hm := hperm.mem_iff.mp hr
        simp only [where_guild, List.mem_filter] at hm
        exact hm.1
      have := hinv r hrdb
      show 0 ≤ r.end_utc - r.start_utc
      omega
    · simp at hvt
  · intro rowsU hvt
    simp only [vt_export_user, Option.some.injEq] at hvt
    split at hvt
    · obtain ⟨rows, hperm, hsort, hout⟩ := hvt
      subst hout
      refine ⟨hperm.length_eq, hsort, ?_⟩
      intro line hline
      simp only [vt_export_csv, List.mem_map] at hline
      obtain ⟨r, hr, hlr⟩ := hline
      subst hlr
      refine ⟨rfl, ?_⟩
      have hrdb : r ∈ db := by
        have hm := hperm.mem_iff.mp hr
        simp only [where_guild_user, List.mem_filter] at hm
        exact hm.1
      have := hinv r hrdb
      show 0 ≤ r.end_utc - r.start_utc
      omega
    · simp at hvt

/-- Witness for the amended C6 at a concrete database: an accepted
(unbounded) export matches the filter count, and a to-only window makes
the aggregation error. -/
theorem C6_amended_export_matches_when_accepted_witness :
    ([⟨1, 2, 3, 0, 125⟩, ⟨1, 2, 4, 200, 300⟩] : List SRow).length =
      (where_guild [⟨1, 2, 3, 0, 125⟩, ⟨1, 2, 4, 200, 300⟩] 1
        (build_utc_range none none).1 (build_utc_range none none).2).length ∧
    total_seconds_user [⟨1, 2, 3, 0, 125⟩, ⟨1, 2, 4, 200, 300⟩] 1 3
      none (some "2100-01-01") = none :=
  ⟨((C6_amended_export_matches_when_accepted
      [⟨1, 2, 3, 0, 125⟩, ⟨1, 2, 4, 200, 300⟩] 1 3 none none
      (by decide)).2.2.2.1 [⟨1, 2, 3, 0, 125⟩, ⟨1, 2, 4, 200, 300⟩]
      (by
        simp only [vt_export]
        rw [if_pos (by decide)]
        exact ⟨[⟨1, 2, 3, 0, 125⟩, ⟨1, 2, 4, 200, 300⟩],
          by decide, by decide, rfl⟩)).1,
   (C6_amended_export_matches_when_accepted
      [⟨1, 2, 3, 0, 125⟩, ⟨1, 2, 4, 200, 300⟩] 1 3 none (some "2100-01-01")
      (by decide)).1.mpr (by decide)⟩

end HealthsBot
